import Mathlib

/-!
# Verification of the Starknet ecosystem encoding/decoding layer

A shallow embedding of `ape_starknet/ecosystems.py`: the calldata
serializer argument-alignment loop, the returndata decoder's collapsing
rule, the event-log decoder, the proxy resolver and the transaction
factory, together with theorems about the properties claimed of them.

Call arguments are untyped Python values (booleans, integers, strings,
byte strings, lists, dicts); they are modelled by the inductive `PyValue`.
Machine integers do not occur: Starknet field elements are
arbitrary-precision non-negative integers, modelled by `Int` (Python ints
are unbounded).
-/

set_option autoImplicit false

namespace ApeStarknet

/-- An untyped Python value as it may appear among call arguments,
pre-encoded arguments, or decoded results. -/
inductive PyValue where
  | bool : Bool → PyValue
  | int : Int → PyValue
  | str : String → PyValue
  | bytes : List Nat → PyValue
  | list : List PyValue → PyValue
  | dict : List (String × PyValue) → PyValue

instance : Inhabited PyValue := ⟨.int 0⟩

/-- `isinstance(value, int)` for a pre-encoded value (Python `bool` is a
subtype of `int`, but pre-encoding already turned booleans into ints, and
the source checks `isinstance(pre_encoded_arg, int)` on the *encoded*
value; a raw `bool` is itself an `int` in Python, so it counts too). -/
def PyValue.isInt : PyValue → Bool
  | .int _ => true
  | .bool _ => true
  | _ => false

/-- Python's `str.endswith` (on the ASCII strings that occur in ABIs). -/
def strEndsWith (s suffixStr : String) : Bool :=
  suffixStr.toList.isSuffixOf s.toList

/-- Python's `str.startswith` (on ASCII strings). -/
def strStartsWith (s p : String) : Bool :=
  p.toList.isPrefixOf s.toList

/-- `eth_utils.is_0x_prefixed`. -/
def is_0x_prefixed (s : String) : Bool :=
  strStartsWith s "0x" || strStartsWith s "0X"

/-- Value of one hexadecimal digit (Python's `int(..., 16)` raises on an
invalid digit; the claims only exercise valid hex literals). -/
def hexDigitVal (c : Char) : Int :=
  if '0' ≤ c ∧ c ≤ '9' then (c.toNat : Int) - ('0'.toNat : Int)
  else if 'a' ≤ c ∧ c ≤ 'f' then (c.toNat : Int) - ('a'.toNat : Int) + 10
  else if 'A' ≤ c ∧ c ≤ 'F' then (c.toNat : Int) - ('A'.toNat : Int) + 10
  else 0

/-- Python `int(s, 16)` on a `"0x"`-prefixed string: the prefix is
accepted and ignored. -/
def parseHexInt (s : String) : Int :=
  ((s.drop 2).toList).foldl (fun a c => a * 16 + hexDigitVal c) 0

/-- Big-endian integer reading of a byte string, Python's
`int(value.hex(), 16)`. -/
def bytesToInt (bs : List Nat) : Int :=
  bs.foldl (fun a b => a * 256 + (b : Int)) 0

/-- `Starknet.encode_primitive_value` (`ecosystems.py`, lines 214-228):
bool → 0/1 (checked before int), int unchanged, `0x`-prefixed string
parsed base 16, byte string read big-endian, anything else passed through
unchanged. -/
def encode_primitive_value : PyValue → PyValue
  | .bool b => .int (if b then 1 else 0)
  | .int n => .int n
  | .str s => if is_0x_prefixed s then .int (parseHexInt s) else .str s
  | .bytes bs => .int (bytesToInt bs)
  | v => v

mutual

/-- `Starknet._pre_encode_value` (lines 187-193): dict → struct,
list/tuple → array, otherwise the primitive codec. -/
def pre_encode_value : PyValue → PyValue
  | .dict fs => .dict (preEncodeFields fs)
  | .list xs => .list (preEncodeList xs)
  | .bool b => encode_primitive_value (.bool b)
  | .int n => encode_primitive_value (.int n)
  | .str s => encode_primitive_value (.str s)
  | .bytes bs => encode_primitive_value (.bytes bs)

/-- The element-wise loop of `Starknet._pre_encode_array` (lines 200-205). -/
def preEncodeList : List PyValue → List PyValue
  | [] => []
  | v :: vs => pre_encode_value v :: preEncodeList vs

/-- The field-wise loop of `Starknet._pre_encode_struct` (lines 207-212),
preserving key order. -/
def preEncodeFields : List (String × PyValue) → List (String × PyValue)
  | [] => []
  | (k, v) :: fs => (k, pre_encode_value v) :: preEncodeFields fs

end

/-- `Starknet._pre_encode_array` (lines 195-205): a non-sequence value is
wrapped as a one-element array first. -/
def pre_encode_array : PyValue → PyValue
  | .list xs => .list (preEncodeList xs)
  | v => .list [pre_encode_value v]

/-- One typed ABI input/output as declared in an `ethpm_types` method ABI:
an optional name and a Cairo type string (array types end in `*`). -/
structure AbiParam where
  name : Option String
  type : String
  deriving Repr, DecidableEq

/-- Does this input's name follow the `<basename>_len` convention
(source line 163-164: `input_type.name is not None and
input_type.name.endswith("_len")`)? -/
def AbiParam.nameEndsLen (p : AbiParam) : Bool :=
  match p.name with
  | some n => strEndsWith n "_len"
  | none => false

/-- `abi.inputs[index + 1]` — Python list indexing; the source only
evaluates it under the guard `index < last_index`, which puts it in
range, so the default is never reached on guarded paths. -/
def paramAt (inputs : List AbiParam) (i : Nat) : AbiParam :=
  (inputs.get? i).getD ⟨none, ""⟩

/-- `call_args[array_index]` — same remark as `paramAt`. -/
def argAt (callArgs : List PyValue) (i : Nat) : PyValue :=
  (callArgs.get? i).getD (.int 0)

/-- The argument-alignment loop of `Starknet._encode_calldata`
(lines 149-182).  State: the remaining `(call_arg, input_type)` pairs of
`zip(call_args, abi.inputs)`, the running `index` counter and the
`did_process_array_during_arr_len` flag.  Note that the `continue` taken
when a folded array position is skipped bypasses the `index += 1` at the
bottom of the Python loop body, so `index` is *not* incremented on that
path. -/
def encodeGo (inputs : List AbiParam) (callArgs : List PyValue) (lastIndex : Int) :
    List (PyValue × AbiParam) → Nat → Bool → List PyValue
  | [], _, _ => []
  | (callArg, inputType) :: rest, index, flag =>
    if strEndsWith inputType.type "*" then
      if flag then
        encodeGo inputs callArgs lastIndex rest index false
      else
        pre_encode_value callArg :: encodeGo inputs callArgs lastIndex rest (index + 1) false
    else if inputType.nameEndsLen && decide ((index : Int) < lastIndex)
        && strEndsWith (paramAt inputs (index + 1)).type "*" then
      let preEncodedArg := pre_encode_value callArg
      if preEncodedArg.isInt then
        pre_encode_array (argAt callArgs (index + 1)) ::
          encodeGo inputs callArgs lastIndex rest (index + 1) true
      else
        preEncodedArg :: encodeGo inputs callArgs lastIndex rest (index + 1) false
    else
      pre_encode_value callArg :: encodeGo inputs callArgs lastIndex rest (index + 1) false

/-- The `pre_encoded_args` list built by `Starknet._encode_calldata`
(lines 149-182) before it is handed to the external
`FunctionCallSerializer.from_python`.  `last_index` is
`min(len(abi.inputs), len(call_args)) - 1` (an `Int`: it is `-1` when
either list is empty). -/
def encode_calldata_pre (inputs : List AbiParam) (callArgs : List PyValue) : List PyValue :=
  encodeGo inputs callArgs (min (inputs.length : Int) (callArgs.length : Int) - 1)
    (callArgs.zip inputs) 0 false

mutual

/-- Modelled from the spec: the final flattening performed by the external
`FunctionCallSerializer.from_python` (spec §4.3: "The final flattening
into raw FieldElements (including emitting actual array lengths before
array contents, and flattening nested structs) is delegated to the
ABI-driven structural serializer", and the glossary's array-length then
struct-flattening conventions).  It is not part of this repository's
source.  An array is emitted as its length followed by its flattened
contents (so the length is recomputed from the content, spec §4.3 rule 3);
a struct is its fields flattened in order; a scalar must already be an
integer (booleans are integers in Python), anything else fails
serialization (`none`). -/
def flattenValue : PyValue → Option (List Int)
  | .int n => some [n]
  | .bool b => some [if b then 1 else 0]
  | .str _ => none
  | .bytes _ => none
  | .list xs =>
    match flattenList xs with
    | some body => some ((xs.length : Int) :: body)
    | none => none
  | .dict fs => flattenFields fs

def flattenList : List PyValue → Option (List Int)
  | [] => some []
  | v :: vs =>
    match flattenValue v, flattenList vs with
    | some a, some b => some (a ++ b)
    | _, _ => none

def flattenFields : List (String × PyValue) → Option (List Int)
  | [] => some []
  | (_, v) :: fs =>
    match flattenValue v, flattenFields fs with
    | some a, some b => some (a ++ b)
    | _, _ => none

end

/-- The flat calldata produced by `Starknet._encode_calldata` (line 184):
the pre-encoded argument list handed to the structural serializer, with
the serializer's flattening modelled from the spec by `flattenValue`. -/
def flat_calldata (inputs : List AbiParam) (callArgs : List PyValue) : Option (List Int) :=
  flattenList (encode_calldata_pre inputs callArgs)

/-- Modelled from the spec: the external structural deserializer
`FunctionCallSerializer.to_python` used by `decode_returndata`
(spec §4.4: "the ABI-driven structural deserializer reconstructs one
value per declared output", with the common `(len, array)` return
convention of §4.4/§4.3: a `_len`-named scalar output immediately
followed by an array-typed output is decoded as a single array value
whose element count is read from the length slot).  It is not part of
this repository's source.  Scalar outputs consume one slot; an
unpaired array output, a malformed length, or leftover data fail
(`none`). -/
def toPythonSpec : List AbiParam → List Int → Option (List PyValue)
  | [], [] => some []
  | [], _ :: _ => none
  | o1 :: o2 :: rest, data =>
    if o1.nameEndsLen && strEndsWith o2.type "*" then
      match data with
      | n :: d2 =>
        if 0 ≤ n ∧ n.toNat ≤ d2.length then
          match toPythonSpec rest (d2.drop n.toNat) with
          | some vs => some (.list ((d2.take n.toNat).map .int) :: vs)
          | none => none
        else none
      | [] => none
    else if strEndsWith o1.type "*" then none
    else
      match data with
      | d :: ds =>
        match toPythonSpec (o2 :: rest) ds with
        | some vs => some (.int d :: vs)
        | none => none
      | [] => none
  | [o], data =>
    if strEndsWith o.type "*" then none
    else
      match data with
      | d :: ds =>
        match toPythonSpec [] ds with
        | some vs => some (.int d :: vs)
        | none => none
      | [] => none

/-- The collapsing condition of `Starknet.decode_returndata`
(lines 130-132): exactly one declared output, or exactly two where the
second is array-typed. -/
def collapseCond (outputs : List AbiParam) : Bool :=
  outputs.length == 1 ||
    (outputs.length == 2 && strEndsWith (paramAt outputs 1).type "*")

/-- `Starknet.decode_returndata` (lines 118-135).  Empty raw data is
returned unchanged (the empty sequence).  Otherwise each flat value
passes through `encode_primitive_value` (the identity on integers, see
`encode_primitive_value_int`), the external structural deserializer
(modelled by `toPythonSpec`) reconstructs the output sequence, and the
collapsing rule keeps only `decoded[0]` when `collapseCond` holds
(`decoded[0]` on an empty sequence is a Python `IndexError`, modelled
as `none`). -/
def decode_returndata (outputs : List AbiParam) (rawData : List Int) : Option PyValue :=
  if rawData.isEmpty then some (.list [])
  else
    match toPythonSpec outputs rawData with
    | none => none
    | some decoded =>
      if collapseCond outputs then decoded.head?
      else some (.list decoded)

/-! ## Event log decoding -/

/-- One typed event field (`ethpm_types.abi.EventABIType`). -/
structure EventAbiType where
  name : String
  type : String
  deriving Repr, DecidableEq

/-- An event ABI (`ethpm_types.abi.EventABI`): name and typed fields. -/
structure EventAbi where
  name : String
  inputs : List EventAbiType
  deriving Repr, DecidableEq

/-- The nested `from_uint` helper of `Starknet.decode_logs`
(lines 373-374): `low + (high << 128)`. -/
def from_uint (low high : Int) : Int :=
  low + high * 2 ^ 128

/-- The nested `decode_items` helper of `Starknet.decode_logs`
(lines 376-393).  A `Uint256` field reads two slots from the data
iterator and appends their combination only when both are present
(`is not None`); any other field reads one slot and appends it only when
it is truthy (a zero slot, or exhausted data, appends nothing). -/
def decode_items : List EventAbiType → List Int → List Int
  | [], _ => []
  | t :: ts, data =>
    if t.type == "Uint256" then
      match data with
      | d1 :: d2 :: rest => from_uint d1 d2 :: decode_items ts rest
      | [_] => decode_items ts []
      | [] => decode_items ts []
    else
      match data with
      | d :: rest => if d = 0 then decode_items ts rest else d :: decode_items ts rest
      | [] => decode_items ts []

/-- Insertion into a Python `dict` modelled as an association list:
first-insertion key order, later writes to an existing key overwrite its
value in place. -/
def dictInsert {κ α : Type} [DecidableEq κ] (k : κ) (v : α) :
    List (κ × α) → List (κ × α)
  | [] => [(k, v)]
  | (k', v') :: rest =>
    if k' = k then (k', v) :: rest else (k', v') :: dictInsert k v rest

/-- A Python `dict` built from a sequence of key/value pairs (dict
comprehension or `dict(zip(...))` semantics). -/
def listToDict {κ α : Type} [DecidableEq κ] (l : List (κ × α)) : List (κ × α) :=
  l.foldl (fun d p => dictInsert p.1 p.2 d) []

/-- Python `d[k]` on a dict known to hold `k` (total here via a default,
which guarded uses never reach). -/
def dictGet {κ α : Type} [DecidableEq κ] [Inhabited α] (k : κ) : List (κ × α) → α
  | [] => default
  | (k', v) :: rest => if k' = k then v else dictGet k rest

instance : Inhabited EventAbi := ⟨⟨"", []⟩⟩

/-- A raw emitted log as consumed by `Starknet.decode_logs`: selector
keys, data slots and carried-through identifiers. -/
structure RawLog where
  keys : List Int
  data : List Int
  block_hash : Int
  block_number : Int
  from_address : Int
  transaction_hash : Int
  deriving Repr, DecidableEq

/-- The decoded `ContractLog` record yielded by `Starknet.decode_logs`. -/
structure DecodedLog where
  block_hash : Int
  block_number : Int
  contract_address : Int
  event_arguments : List (String × Int)
  event_name : String
  log_index : Nat
  transaction_hash : Int
  transaction_index : Nat
  deriving Repr, DecidableEq

/-- Modelled from the spec: the address codec
(`Starknet.decode_address`, whose implementation `to_checksum_address`
lives in `ape_starknet/utils`, outside this module's source): it
canonicalizes a raw on-chain address value into the ecosystem's
checksum form; only injectivity and determinism matter to the claims, so
it is modelled as the identity embedding on field elements. -/
def decode_address (a : Int) : Int := a

/-- `events_by_selector` (line 370): a dict keyed by each event's
selector.  The selector hash `get_selector_from_name` is an external
deterministic hash (spec §4.5 step 1); the whole decoder is parametrized
by it. -/
def eventsBySelector (sel : String → Int) (events : List EventAbi) :
    List (Int × EventAbi) :=
  listToDict (events.map fun e => (sel e.name, e))

/-- `log_map` (line 371): for every selector key, the logs whose `keys`
list contains it, in chronological order. -/
def logMapOf (sel : String → Int) (logs : List RawLog) (events : List EventAbi) :
    List (Int × List RawLog) :=
  (eventsBySelector sel events).map fun p =>
    (p.1, logs.filter fun log => decide (p.1 ∈ log.keys))

/-- `dict(zip([a.name for a in abi.inputs], decode_items(abi.inputs, data)))`
(lines 401-403): the decoded name-to-value mapping of one log.  Note the
zip is positional: dropped zero slots shift later decoded values onto
earlier names. -/
def event_arguments (abiInputs : List EventAbiType) (data : List Int) :
    List (String × Int) :=
  listToDict ((abiInputs.map (·.name)).zip (decode_items abiInputs data))

/-- One `ContractLog` yielded at enumeration index `index` for selector
`selector` (lines 404-413). -/
def mkDecodedLog (ebs : List (Int × EventAbi)) (index : Nat) (selector : Int)
    (log : RawLog) : DecodedLog :=
  let abi := dictGet selector ebs
  { block_hash := log.block_hash
    block_number := log.block_number
    contract_address := decode_address log.from_address
    event_arguments := event_arguments abi.inputs log.data
    event_name := abi.name
    log_index := index
    transaction_hash := log.transaction_hash
    transaction_index := 0 }

/-- The `for index, (selector, logs) in enumerate(log_map.items())` loop
(lines 395-413): empty groups are skipped by `continue` but still
consume their enumeration index. -/
def decodeGroups (ebs : List (Int × EventAbi)) :
    Nat → List (Int × List RawLog) → List DecodedLog
  | _, [] => []
  | index, (selector, grp) :: rest =>
    (grp.map (mkDecodedLog ebs index selector)) ++ decodeGroups ebs (index + 1) rest

/-- `Starknet.decode_logs` (lines 369-413), parametrized by the external
selector hash `sel` (`get_selector_from_name`). -/
def decode_logs (sel : String → Int) (logs : List RawLog) (events : List EventAbi) :
    List DecodedLog :=
  decodeGroups (eventsBySelector sel events) 0 (logMapOf sel logs events)

/-! ## Proxy resolution -/

/-- The `ProxyType` enumeration (lines 56-59). -/
inductive ProxyType where
  | LEGACY
  | ARGENT_X
  | OPEN_ZEPPELIN
  deriving Repr, DecidableEq

/-- The resolved `StarknetProxy` descriptor (lines 62-67): delegate
target plus convention tag. -/
structure StarknetProxy where
  target : Int
  type : ProxyType
  deriving Repr, DecidableEq

/-- Python `target == "0x0"`: true only when `target` is the literal
string `"0x0"` (an integer never equals a string in Python). -/
def pyEqStr0x0 : PyValue → Bool
  | .str s => s = "0x0"
  | _ => false

/-- Python truthiness of the `target` value flowing through
`_get_proxy_info`: an integer is truthy iff nonzero, a string iff
non-empty. -/
def pyTruthy : PyValue → Bool
  | .int n => n ≠ 0
  | .bool b => b
  | .str s => s ≠ ""
  | .bytes bs => bs ≠ []
  | .list xs => !xs.isEmpty
  | .dict fs => !fs.isEmpty

/-- The collaborators consulted by `Starknet._get_proxy_info` for one
contract: its declared view-method names, the results of invoking the
two well-known view methods, whether a live storage-reading client is
available, and the raw value stored at the fixed OZ proxy slot. -/
structure ProxyEnv where
  view_methods : List String
  implementation_result : PyValue
  get_implementation_result : PyValue
  client_available : Bool
  storage_result : PyValue

/-- `Starknet._get_proxy_info` (lines 420-451).  Priority order: the
`implementation` view method (LEGACY), then `get_implementation`
(ARGENT_X), then the fixed `Proxy_implementation_hash` storage slot
(OPEN_ZEPPELIN, with the literal string `"0x0"` treated as absent).
A descriptor is returned only when both a truthy target and a tag were
established; its target goes through the address codec.  The codec
accepts ints (and hex strings); `decodeAddressValue` extracts the field
element. -/
def decodeAddressValue : PyValue → Int
  | .int n => decode_address n
  | .str s => decode_address (if is_0x_prefixed s then parseHexInt s else 0)
  | .bool b => decode_address (if b then 1 else 0)
  | _ => 0

def get_proxy_info_inner (env : ProxyEnv) : Option StarknetProxy :=
  let targetAndType : Option PyValue × Option ProxyType :=
    if "implementation" ∈ env.view_methods then
      (some env.implementation_result, some .LEGACY)
    else if "get_implementation" ∈ env.view_methods then
      (some env.get_implementation_result, some .ARGENT_X)
    else if env.client_available then
      if pyEqStr0x0 env.storage_result then (none, none)
      else (some env.storage_result, some .OPEN_ZEPPELIN)
    else (none, none)
  match targetAndType with
  | (some target, some proxyType) =>
    if pyTruthy target then some ⟨decodeAddressValue target, proxyType⟩ else none
  | _ => none

/-! ## Transaction factory and receipt decoding -/

/-- The external `starkware` `TransactionType` enumeration consumed by
`decode_receipt` and `create_transaction`; its members' values are their
tag strings as they arrive in raw chain data. -/
inductive TransactionType where
  | DECLARE
  | DEPLOY
  | DEPLOY_ACCOUNT
  | INITIALIZE_BLOCK_INFO
  | INVOKE_FUNCTION
  | L1_HANDLER
  deriving Repr, DecidableEq

/-- The tag string of a transaction kind. -/
def TransactionType.value : TransactionType → String
  | .DECLARE => "DECLARE"
  | .DEPLOY => "DEPLOY"
  | .DEPLOY_ACCOUNT => "DEPLOY_ACCOUNT"
  | .INITIALIZE_BLOCK_INFO => "INITIALIZE_BLOCK_INFO"
  | .INVOKE_FUNCTION => "INVOKE_FUNCTION"
  | .L1_HANDLER => "L1_HANDLER"

/-- `TransactionType(tag)`: enum lookup by value; an unknown tag raises
`ValueError` (modelled by `none`). -/
def TransactionType.ofValue (tag : String) : Option TransactionType :=
  if tag = "DECLARE" then some .DECLARE
  else if tag = "DEPLOY" then some .DEPLOY
  else if tag = "DEPLOY_ACCOUNT" then some .DEPLOY_ACCOUNT
  else if tag = "INITIALIZE_BLOCK_INFO" then some .INITIALIZE_BLOCK_INFO
  else if tag = "INVOKE_FUNCTION" then some .INVOKE_FUNCTION
  else if tag = "L1_HANDLER" then some .L1_HANDLER
  else none

/-- The Python exceptions that can surface from `decode_receipt` and
`create_transaction`. -/
inductive PyError where
  /-- `StarknetProviderError` with its message. -/
  | providerError : String → PyError
  /-- `ValueError` from the `TransactionType` enum constructor. -/
  | valueError : PyError
  /-- `UnboundLocalError`: `txn_cls` was never assigned (no dispatch
  branch matched) yet is used at the `return txn_cls(**txn_data)`. -/
  | unboundLocal : PyError
  /-- `StarknetEcosystemError` (target contract not found). -/
  | ecosystemError : PyError
  /-- `KeyError` from `txn_data["contract_address"]` when absent. -/
  | keyError : PyError
  /-- `get_method_abi_from_selector` found no matching method. -/
  | selectorNotFound : PyError
  deriving Repr, DecidableEq

/-- Is this error a `StarknetProviderError`? -/
def PyError.isProviderError : PyError → Bool
  | .providerError _ => true
  | _ => false

/-- A method ABI as carried on transactions; for these claims only its
identity matters, recorded by its name and typed inputs. -/
structure MethodAbiM where
  name : String
  inputs : List AbiParam
  deriving Repr, DecidableEq

/-- Modelled from the spec: the canonical `__execute__` multicall
signature `EXECUTE_ABI` (defined in `ape_starknet/utils`, outside this
module's source; spec §4.7: "default to the canonical `__execute__`
multicall signature").  The account multicall entry point takes the
call-array and flat calldata arrays. -/
def EXECUTE_ABI : MethodAbiM :=
  { name := "__execute__"
    inputs := [⟨some "call_array_len", "felt"⟩, ⟨some "call_array", "CallArray*"⟩,
               ⟨some "calldata_len", "felt"⟩, ⟨some "calldata", "felt*"⟩] }

/-- A locally known contract type, as consulted by the transaction
factory: optional deployment bytecode (itself an optional hex blob, as
in `ethpm_types`), and method-ABI lookup by selector
(`get_method_abi_from_selector`, outside this module's source,
spec §4.7: "resolve the target contract's known ABI to find the matching
method signature by selector"). -/
structure ContractTypeM where
  deployment_bytecode : Option (Option Int)
  method_by_selector : Int → Option MethodAbiM

/-- The collaborators `create_transaction` consults. -/
structure TxnEnv where
  /-- `self.network_manager.active_provider` truthiness. -/
  active_provider : Bool
  /-- `self.provider.chain_id`. -/
  provider_chain_id : Int
  /-- `self.get_local_contract_type(class_hash)`. -/
  local_contract_type : Int → Option ContractTypeM
  /-- `self.get_contract_type(address)`. -/
  get_contract_type : Int → Option ContractTypeM
  /-- `self.chain_manager.contracts.get(address)`. -/
  chain_contracts : Int → Option ContractTypeM

/-- The raw keyword-argument mapping handed to `create_transaction`;
`none` means the key is absent. -/
structure RawTxnFields where
  type_field : Option String
  tx_type_field : Option String
  method_abi : Option MethodAbiM
  entry_point_selector : Option Int
  contract_address : Option Int
  class_hash : Option Int
  calldata : Option (List PyValue)
  chain_id : Option Int
  deriving Inhabited

/-- The structured transaction built by `create_transaction`. -/
structure BuiltTxn where
  txn_type : TransactionType
  method_abi : Option MethodAbiM
  receiver : Option Int
  contract_address : Option Int
  calldata : Option (List PyValue)
  chain_id : Option Int
  data : Option (Option Int)
  /-- forced to `None` (line 317). -/
  signature : Option Unit

/-- `Starknet.create_transaction` (lines 306-367).  The kind tag comes
from `kwargs.pop("type", kwargs.pop("tx_type", ""))`; `txn_cls` is
assigned only for the three handled kinds, so any other parsed kind
reaches `return txn_cls(**txn_data)` with `txn_cls` unbound.  The
`method_abi`/`entry_point_selector` check uses Python truthiness
(`txn_data.get(...)`): a present zero selector is falsy. -/
def create_transaction (env : TxnEnv) (f : RawTxnFields) : Except PyError BuiltTxn :=
  match TransactionType.ofValue (f.type_field.getD (f.tx_type_field.getD "")) with
  | none => .error .valueError
  | some txnType =>
    let invoking : Bool := txnType = .INVOKE_FUNCTION
    let clsAssigned : Bool :=
      invoking || txnType = .DECLARE || txnType = .DEPLOY_ACCOUNT
    let chainId :=
      if f.chain_id.isNone && env.active_provider then some env.provider_chain_id
      else f.chain_id
    -- the `"contract_address" in txn_data` block (lines 322-337)
    let decodedCa : Option Int := f.contract_address.map decode_address
    let dataField : Option (Option Int) :=
      match decodedCa with
      | none => none
      | some ca =>
        let ct0 : Option ContractTypeM :=
          match f.class_hash with
          | some ch => env.local_contract_type ch
          | none => none
        let ct : Option ContractTypeM :=
          match ct0 with
          | some c => some c
          | none => env.get_contract_type ca
        match ct with
        | some c =>
          match c.deployment_bytecode with
          | some bytecodeObj => some bytecodeObj
          | none => none
        | none => none
    if ¬ invoking then
      if clsAssigned then
        .ok { txn_type := txnType, method_abi := f.method_abi, receiver := none,
              contract_address := decodedCa, calldata := f.calldata,
              chain_id := chainId, data := dataField, signature := none }
      else
        .error .unboundLocal
    else
      -- invoke transactions (lines 342-367)
      let methodAbiGiven : Bool := f.method_abi.isSome
      let selectorTruthy : Bool :=
        match f.entry_point_selector with
        | some s => s ≠ 0
        | none => false
      let methodAbiRes : Except PyError MethodAbiM :=
        if !methodAbiGiven && selectorTruthy then
          match decodedCa with
          | none => .error .keyError
          | some ca =>
            match env.chain_contracts (decode_address ca) with
            | none => .error .ecosystemError
            | some ct =>
              match ct.method_by_selector (f.entry_point_selector.getD 0) with
              | some m => .ok m
              | none => .error .selectorNotFound
        else
          .ok EXECUTE_ABI
      match methodAbiRes with
      | .error e => .error e
      | .ok methodAbi =>
        .ok { txn_type := txnType, method_abi := some methodAbi,
              receiver := decodedCa, contract_address := none,
              calldata := f.calldata.map (·.map encode_primitive_value),
              chain_id := chainId, data := dataField, signature := none }

/-- The receipt classes `decode_receipt` dispatches to. -/
inductive ReceiptCls where
  | invokeFunctionReceipt
  | contractDeclaration
  | deployAccountReceipt
  deriving Repr, DecidableEq

/-- `Starknet.decode_receipt` (lines 230-246): parse the kind tag with
the `TransactionType` enum (an unknown tag is a `ValueError`), dispatch
the three handled kinds, and raise `StarknetProviderError` for any other
recognized kind. -/
def decode_receipt (tag : String) : Except PyError ReceiptCls :=
  match TransactionType.ofValue tag with
  | none => .error .valueError
  | some txnType =>
    if txnType = .INVOKE_FUNCTION then .ok .invokeFunctionReceipt
    else if txnType = .DECLARE then .ok .contractDeclaration
    else if txnType = .DEPLOY_ACCOUNT then .ok .deployAccountReceipt
    else .error (.providerError
      ("Unable to handle contract type '" ++ txnType.value ++ "'."))

/-! ## Concrete instances used by the theorems -/

/-- A method with two `_len`/array pairs: `(a_len, a*, b_len, b*)`. -/
def twoPairInputs : List AbiParam :=
  [⟨some "a_len", "felt"⟩, ⟨some "a", "felt*"⟩,
   ⟨some "b_len", "felt"⟩, ⟨some "b", "felt*"⟩]

/-- Arguments for `twoPairInputs`: each length followed by its array. -/
def twoPairArgs : List PyValue :=
  [.int 2, .list [.int 1, .int 2], .int 3, .list [.int 7, .int 8, .int 9]]

/-- Event with no fields named `"A"`. -/
def evA : EventAbi := ⟨"A", []⟩

/-- Event with no fields named `"B"`. -/
def evB : EventAbi := ⟨"B", []⟩

/-- A concrete selector hash for the demo events. -/
def demoSel (n : String) : Int := if n = "A" then 1 else 2

/-- A raw log carrying event A's selector. -/
def logA : RawLog :=
  { keys := [1], data := [], block_hash := 10, block_number := 11,
    from_address := 12, transaction_hash := 13 }

/-- A second raw log carrying event A's selector. -/
def logA2 : RawLog :=
  { keys := [1], data := [], block_hash := 20, block_number := 21,
    from_address := 22, transaction_hash := 23 }

/-- A raw log carrying event B's selector. -/
def logB : RawLog :=
  { keys := [2], data := [], block_hash := 30, block_number := 31,
    from_address := 32, transaction_hash := 33 }

/-- A proxy environment exposing both well-known view methods, whose
`implementation()` call returns the zero address. -/
def zeroImplEnv : ProxyEnv :=
  { view_methods := ["implementation", "get_implementation"],
    implementation_result := .int 0,
    get_implementation_result := .int 1234,
    client_available := true,
    storage_result := .int 777 }

/-- A transaction-factory environment with no known contracts and no
active provider. -/
def emptyTxnEnv : TxnEnv :=
  { active_provider := false, provider_chain_id := 0,
    local_contract_type := fun _ => none,
    get_contract_type := fun _ => none,
    chain_contracts := fun _ => none }

/-- Raw fields declaring the recognized-but-unhandled `DEPLOY` kind. -/
def deployFields : RawTxnFields :=
  { type_field := some "DEPLOY", tx_type_field := none, method_abi := none,
    entry_point_selector := none, contract_address := none,
    class_hash := none, calldata := none, chain_id := none }

/-- Raw fields declaring an invoke with neither `method_abi` nor
`entry_point_selector`. -/
def bareInvokeFields : RawTxnFields :=
  { type_field := some "INVOKE_FUNCTION", tx_type_field := none,
    method_abi := none, entry_point_selector := none,
    contract_address := none, class_hash := none, calldata := none,
    chain_id := none }

/-- A caller-supplied method ABI distinct from `EXECUTE_ABI`. -/
def transferAbi : MethodAbiM :=
  { name := "transfer", inputs := [⟨some "recipient", "felt"⟩, ⟨some "amount", "Uint256"⟩] }

/-! # Theorems -/

/-- `encode_primitive_value` is the identity on plain integers, so the
re-encoding pass on `raw_data` (source line 126) is a no-op for the
integer sequences the returndata decoder consumes. -/
theorem encode_primitive_value_int (n : Int) :
    encode_primitive_value (.int n) = .int n := rfl

/-- C1, counterexample.  In the method `(a_len: felt, a: felt*, b_len:
felt, b: felt*)` with arguments `(2, [1, 2], 3, [7, 8, 9])`, the claim's
preconditions all hold at position 2 (`b_len` ends in `_len`, position 2
is not the last processed input since `last_index = 3`, the input at
position 3 is array-typed, and the argument 3 pre-encodes to a plain
integer) — yet the produced list keeps the raw length `3` as an ordinary
scalar at position 1 of the output and processes the array at position 3
separately (output has three elements, not two): after the first
`_len`/array fold the skipped array position does not increment the
internal `index`, so the lookahead `abi.inputs[index + 1]` examines
`b_len` itself instead of `b` and the fold rule does not fire. -/
theorem c1_counterexample :
    (paramAt twoPairInputs 2).nameEndsLen = true ∧
    (2 : Int) < min (twoPairInputs.length : Int) (twoPairArgs.length : Int) - 1 ∧
    strEndsWith (paramAt twoPairInputs 3).type "*" = true ∧
    (pre_encode_value (argAt twoPairArgs 2)).isInt = true ∧
    encode_calldata_pre twoPairInputs twoPairArgs =
      [.list [.int 1, .int 2], .int 3, .list [.int 7, .int 8, .int 9]] :=
  ⟨rfl, by decide, rfl, rfl, rfl⟩

/-- C1, amended.  The claimed behaviour of the `_len` rule holds at every
position the alignment loop reaches *with its internal `index` equal to
the position and no pending skip flag* (which is the state at every
position before the first fold; after a fold the skipped array position
leaves `index` lagging one behind the position): if the scalar-typed
input's name ends in `_len`, the position is not the last processed one,
and the next declared input is array-typed, then a length argument that
pre-encodes to a plain integer is dropped in favour of the next argument
pre-encoded as an array (the raw length is never appended) and the next
position is consumed by the skip flag without contributing an element;
a length value that does not pre-encode to a plain integer is appended
as an ordinary scalar. -/
theorem c1_len_fold_step (inputs : List AbiParam) (callArgs : List PyValue)
    (lastIndex : Int) (i : Nat) (a a' : PyValue) (inp inp' : AbiParam)
    (rest : List (PyValue × AbiParam))
    (hscalar : strEndsWith inp.type "*" = false)
    (hlen : inp.nameEndsLen = true)
    (hlt : (i : Int) < lastIndex)
    (harr : strEndsWith inp'.type "*" = true)
    (hsyncInp : paramAt inputs (i + 1) = inp')
    (hsyncArg : argAt callArgs (i + 1) = a') :
    encodeGo inputs callArgs lastIndex ((a, inp) :: (a', inp') :: rest) i false =
      if (pre_encode_value a).isInt then
        pre_encode_array a' :: encodeGo inputs callArgs lastIndex rest (i + 1) false
      else
        pre_encode_value a ::
          encodeGo inputs callArgs lastIndex ((a', inp') :: rest) (i + 1) false := by
  have hdec : decide ((i : Int) < lastIndex) = true := decide_eq_true hlt
  by_cases hint : (pre_encode_value a).isInt <;>
    simp [encodeGo, hscalar, hlen, hdec, harr, hsyncInp, hsyncArg, hint]

/-- Witness for `c1_len_fold_step`: the method `(a_len: felt, a: felt*)`
with arguments `(1, [5])` folds into the single pre-encoded array
`[5]`. -/
theorem c1_len_fold_step_witness :
    encodeGo [⟨some "a_len", "felt"⟩, ⟨some "a", "felt*"⟩] [.int 1, .list [.int 5]] 1
      [(.int 1, ⟨some "a_len", "felt"⟩), (.list [.int 5], ⟨some "a", "felt*"⟩)] 0 false =
      [.list [.int 5]] :=
  (c1_len_fold_step [⟨some "a_len", "felt"⟩, ⟨some "a", "felt*"⟩]
    [.int 1, .list [.int 5]] 1 0 (.int 1) (.list [.int 5])
    ⟨some "a_len", "felt"⟩ ⟨some "a", "felt*"⟩ [] rfl rfl (by decide) rfl rfl rfl).trans rfl

/-- C2.  For a method whose declared inputs start with the `count_len`
scalar immediately followed by the array-typed `arr`, serializing with
`(count_value, body)` pre-encodes to the single array regardless of the
integer `count` supplied — the length value is dropped entirely — and
the resulting flat calldata for a three-element body `[a, b, c]` is the
length-prefixed `[3, a, b, c]`, the length derived purely from the
content. -/
theorem c2_length_from_content (count : Int) (rest : List AbiParam) (body : List PyValue) :
    encode_calldata_pre (⟨some "count_len", "felt"⟩ :: ⟨some "arr", "felt*"⟩ :: rest)
        [.int count, .list body] = [.list (preEncodeList body)] ∧
    ∀ a b c : Int,
      flat_calldata (⟨some "count_len", "felt"⟩ :: ⟨some "arr", "felt*"⟩ :: rest)
        [.int count, .list [.int a, .int b, .int c]] = some [3, a, b, c] := by
  have key : ∀ body' : List PyValue,
      encode_calldata_pre (⟨some "count_len", "felt"⟩ :: ⟨some "arr", "felt*"⟩ :: rest)
        [.int count, .list body'] = [.list (preEncodeList body')] := by
    intro body'
    have hmin : min ((rest.length : Int) + 1 + 1) 2 - 1 = (1 : Int) := by omega
    simp only [encode_calldata_pre, List.length_cons, List.length_nil, List.zip_cons_cons,
      List.zip_nil_left]
    push_cast
    rw [hmin]
    have h1 : strEndsWith "felt" "*" = false := by decide
    have h2 : strEndsWith "felt*" "*" = true := by decide
    have h3 : AbiParam.nameEndsLen ⟨some "count_len", "felt"⟩ = true := by decide
    simp [encodeGo, paramAt, argAt, h1, h2, h3, pre_encode_value, pre_encode_array,
      encode_primitive_value, PyValue.isInt]
  refine ⟨key body, fun a b c => ?_⟩
  rw [flat_calldata, key [.int a, .int b, .int c]]
  simp [flattenList, flattenValue, preEncodeList, pre_encode_value, encode_primitive_value]

/-- C3.  On non-empty returndata that the structural deserializer
decodes to the non-empty output sequence `d`, `decode_returndata`
returns the bare first decoded value exactly when the collapsing
condition holds (exactly one declared output, or exactly two with the
second array-typed), and a sequence otherwise; in particular a
single-output method's flat result `[42]` decodes to the bare `42`, and
a two-output `(r_len, r*)` method's result `[3, 10, 11, 12]` decodes to
the array value `[10, 11, 12]` with the count discarded. -/
theorem c3_collapse (outputs : List AbiParam) (raw : List Int) (d : List PyValue)
    (hraw : raw ≠ []) (hdec : toPythonSpec outputs raw = some d) (hd : d ≠ []) :
    decode_returndata outputs raw =
      some (if collapseCond outputs then d.headI else .list d) ∧
    decode_returndata [⟨some "res", "felt"⟩] [42] = some (.int 42) ∧
    decode_returndata [⟨some "r_len", "felt"⟩, ⟨some "r", "felt*"⟩] [3, 10, 11, 12]
      = some (.list [.int 10, .int 11, .int 12]) := by
  refine ⟨?_, rfl, rfl⟩
  rw [decode_returndata, if_neg (by simp [hraw]), hdec]
  by_cases hc : collapseCond outputs
  · cases d with
    | nil => exact absurd rfl hd
    | cons x xs => simp [hc]
  · simp [hc]

/-- Witness for `c3_collapse` at the single-output method decoding
`[42]`. -/
theorem c3_collapse_witness :
    decode_returndata [⟨some "res", "felt"⟩] [42] =
      some (if collapseCond [⟨some "res", "felt"⟩] then ([PyValue.int 42]).headI
            else .list [.int 42]) :=
  (c3_collapse [⟨some "res", "felt"⟩] [42] [.int 42] (List.cons_ne_nil _ _) rfl
    (List.cons_ne_nil _ _)).1

/-- C4, counterexample.  For an event with two single-slot fields
`a, b` and data `[0, 7]`, the zero slot for `a` is dropped from the
decoded value list, so the positional `dict(zip(names, decoded))`
records the entry `a ↦ 7` — the name-to-value mapping *does* contain an
entry for the zero-valued field `a` (holding `b`'s value), contradicting
the claim that no entry for that field is recorded; it is `b` that ends
up with no entry. -/
theorem c4_counterexample :
    decode_items [⟨"a", "felt"⟩, ⟨"b", "felt"⟩] [0, 7] = [7] ∧
    event_arguments [⟨"a", "felt"⟩, ⟨"b", "felt"⟩] [0, 7] = [("a", 7)] :=
  ⟨rfl, rfl⟩

/-- C4, amended.  For every event field not typed as a wide
(double-slot) integer, exactly one data slot is consumed, and whenever
that slot holds the value `0` (or data is exhausted) no value for that
field is appended to the decoded *value list* — the zero is dropped
rather than recorded; because the field names are zipped positionally
with that list, the drop shifts later fields' values onto earlier field
names in the name-to-value mapping instead of leaving the zero-valued
field's own name absent. -/
theorem c4_zero_slot_dropped (t : EventAbiType) (ts : List EventAbiType)
    (d : Int) (ds : List Int) (hw : t.type ≠ "Uint256") :
    decode_items (t :: ts) (d :: ds) =
      (if d = 0 then decode_items ts ds else d :: decode_items ts ds) ∧
    decode_items (t :: ts) [] = decode_items ts [] := by
  constructor <;> simp [decode_items, hw]

/-- Witness for `c4_zero_slot_dropped`: a single `felt` field with data
`[0]` decodes to the empty value list. -/
theorem c4_zero_slot_dropped_witness :
    decode_items [⟨"a", "felt"⟩] [0] =
      (if (0 : Int) = 0 then decode_items [] [] else 0 :: decode_items [] []) ∧
    decode_items [⟨"a", "felt"⟩] [] = decode_items [] [] :=
  c4_zero_slot_dropped ⟨"a", "felt"⟩ [] 0 [] (by decide)

/-- C5.  A `Uint256`-typed event field consumes exactly two consecutive
data slots and, when both are present, contributes
`low + (high << 128)`; in particular data `[5, 0]` decodes to `5`. -/
theorem c5_uint256_two_slots (t : EventAbiType) (ts : List EventAbiType)
    (d1 d2 : Int) (ds : List Int) (hu : t.type = "Uint256") :
    decode_items (t :: ts) (d1 :: d2 :: ds) = from_uint d1 d2 :: decode_items ts ds ∧
    from_uint d1 d2 = d1 + d2 * 2 ^ 128 ∧
    decode_items [⟨"value", "Uint256"⟩] [5, 0] = [5] := by
  refine ⟨by simp [decode_items, hu], rfl, ?_⟩
  show from_uint 5 0 :: decode_items [] [] = [5]
  norm_num [from_uint, decode_items]

/-- Witness for `c5_uint256_two_slots` at data `[5, 0]`. -/
theorem c5_uint256_two_slots_witness :
    decode_items [⟨"value", "Uint256"⟩] [5, 0] = from_uint 5 0 :: decode_items [] [] ∧
    from_uint 5 0 = 5 + 0 * 2 ^ 128 ∧
    decode_items [⟨"value", "Uint256"⟩] [5, 0] = [5] :=
  c5_uint256_two_slots ⟨"value", "Uint256"⟩ [] 5 0 [] rfl

/-- C6, counterexample.  A contract exposing the view method
`implementation` (alongside `get_implementation`) whose
`implementation()` call returns the address `0` resolves to *no*
descriptor: the final `if target and proxy_type` guard treats the falsy
zero target as absent, contradicting the claim that such a contract
"always" yields a LEGACY descriptor targeting the returned address. -/
theorem c6_counterexample :
    "implementation" ∈ zeroImplEnv.view_methods ∧
    zeroImplEnv.implementation_result = .int 0 ∧
    get_proxy_info_inner zeroImplEnv = none :=
  ⟨by simp [zeroImplEnv], rfl, rfl⟩

/-- C6, amended.  A contract exposing a view method named exactly
`implementation` that returns a *nonzero* address `X` always resolves to
a LEGACY descriptor targeting `X` (through the address codec),
regardless of whether `get_implementation` is also present: the
`implementation` check has first priority. -/
theorem c6_legacy_priority (env : ProxyEnv) (X : Int)
    (hm : "implementation" ∈ env.view_methods)
    (hr : env.implementation_result = .int X) (hX : X ≠ 0) :
    get_proxy_info_inner env = some ⟨decode_address X, .LEGACY⟩ := by
  simp [get_proxy_info_inner, hm, hr, pyTruthy, hX, decodeAddressValue]

/-- Witness for `c6_legacy_priority`: both well-known view methods
present, `implementation()` returning `1234`. -/
theorem c6_legacy_priority_witness :
    get_proxy_info_inner
      ⟨["implementation", "get_implementation"], .int 1234, .int 5678, true, .int 777⟩ =
      some ⟨decode_address 1234, .LEGACY⟩ :=
  c6_legacy_priority _ 1234 (by simp) rfl (by decide)

/-- C7.  Raw fields with the `INVOKE_FUNCTION` kind that supply neither
a `method_abi` nor an `entry_point_selector` entry construct an invoke
transaction whose method signature is the canonical `__execute__`
multicall signature, for every environment. -/
theorem c7_default_execute (env : TxnEnv) (f : RawTxnFields)
    (htag : f.type_field.getD (f.tx_type_field.getD "") = "INVOKE_FUNCTION")
    (hm : f.method_abi = none) (hs : f.entry_point_selector = none) :
    ∃ t, create_transaction env f = .ok t ∧ t.method_abi = some EXECUTE_ABI := by
  have hof : TransactionType.ofValue "INVOKE_FUNCTION" = some .INVOKE_FUNCTION := rfl
  rw [create_transaction, htag, hof]
  simp [hm, hs]

/-- Witness for `c7_default_execute`: bare invoke fields in the empty
environment. -/
theorem c7_default_execute_witness :
    ∃ t, create_transaction emptyTxnEnv bareInvokeFields = .ok t ∧
      t.method_abi = some EXECUTE_ABI :=
  c7_default_execute emptyTxnEnv bareInvokeFields rfl rfl rfl

/-- C10.  Raw fields with the `INVOKE_FUNCTION` kind that supply an
explicit `method_abi` but no `entry_point_selector` have the supplied
ABI replaced by the canonical `__execute__` ABI in the constructed
transaction (the truthy `method_abi` falsifies the
`not txn_data.get("method_abi") and txn_data.get("entry_point_selector")`
condition, and the `else` branch overwrites it unconditionally), so a
caller-supplied method ABI is not preserved on this path. -/
theorem c10_method_abi_overwritten (env : TxnEnv) (f : RawTxnFields) (m : MethodAbiM)
    (htag : f.type_field.getD (f.tx_type_field.getD "") = "INVOKE_FUNCTION")
    (hm : f.method_abi = some m) (hs : f.entry_point_selector = none) :
    ∃ t, create_transaction env f = .ok t ∧ t.method_abi = some EXECUTE_ABI := by
  have hof : TransactionType.ofValue "INVOKE_FUNCTION" = some .INVOKE_FUNCTION := rfl
  rw [create_transaction, htag, hof]
  simp [hm, hs]

/-- Witness for `c10_method_abi_overwritten`: a supplied `transfer` ABI
is replaced by `EXECUTE_ABI`. -/
theorem c10_method_abi_overwritten_witness :
    ∃ t, create_transaction emptyTxnEnv
        { bareInvokeFields with method_abi := some transferAbi } = .ok t ∧
      t.method_abi = some EXECUTE_ABI :=
  c10_method_abi_overwritten emptyTxnEnv
    { bareInvokeFields with method_abi := some transferAbi } transferAbi rfl rfl rfl

/-- C9, counterexample.  Raw fields carrying the recognized but
unhandled `DEPLOY` kind make `create_transaction` fail with an
`UnboundLocalError` (`txn_cls` is never assigned before
`return txn_cls(**txn_data)`), which is not a `StarknetProviderError` —
contradicting the claim that transaction construction raises a
`ProviderError` for every unhandled kind. -/
theorem c9_counterexample :
    create_transaction emptyTxnEnv deployFields = .error .unboundLocal ∧
    PyError.isProviderError .unboundLocal = false :=
  ⟨rfl, rfl⟩

/-- C9, amended.  For a tag that the kind enumeration recognizes but
that is none of the handled kinds (invoke, declare, deploy-account),
*receipt decoding* raises a `StarknetProviderError` synchronously, while
*transaction construction* instead fails with an `UnboundLocalError`
from the missing dispatch branch; a tag the enumeration does not
recognize at all fails enum parsing with a `ValueError` in both
operations rather than a `ProviderError`. -/
theorem c9_unhandled_kind (tag : String) (t : TransactionType) (env : TxnEnv)
    (f : RawTxnFields)
    (hparse : TransactionType.ofValue tag = some t)
    (h1 : t ≠ .INVOKE_FUNCTION) (h2 : t ≠ .DECLARE) (h3 : t ≠ .DEPLOY_ACCOUNT)
    (hf : f.type_field.getD (f.tx_type_field.getD "") = tag) :
    decode_receipt tag =
      .error (.providerError ("Unable to handle contract type '" ++ t.value ++ "'.")) ∧
    create_transaction env f = .error .unboundLocal ∧
    ∀ g : String, TransactionType.ofValue g = none →
      decode_receipt g = .error .valueError ∧
      ∀ (envG : TxnEnv) (fG : RawTxnFields),
        fG.type_field.getD (fG.tx_type_field.getD "") = g →
        create_transaction envG fG = .error .valueError := by
  refine ⟨?_, ?_, fun g hg =>
    ⟨by rw [decode_receipt, hg], fun envG fG hfG => by rw [create_transaction, hfG, hg]⟩⟩
  · rw [decode_receipt, hparse]
    simp [h1, h2, h3]
  · rw [create_transaction, hf, hparse]
    simp [h1, h2, h3]

/-- Witness for `c9_unhandled_kind` at the `DEPLOY` kind. -/
theorem c9_unhandled_kind_witness :
    decode_receipt "DEPLOY" =
      .error (.providerError
        ("Unable to handle contract type '" ++ TransactionType.DEPLOY.value ++ "'.")) ∧
    create_transaction emptyTxnEnv deployFields = .error .unboundLocal ∧
    ∀ g : String, TransactionType.ofValue g = none →
      decode_receipt g = .error .valueError ∧
      ∀ (envG : TxnEnv) (fG : RawTxnFields),
        fG.type_field.getD (fG.tx_type_field.getD "") = g →
        create_transaction envG fG = .error .valueError :=
  c9_unhandled_kind "DEPLOY" .DEPLOY emptyTxnEnv deployFields rfl
    (by decide) (by decide) (by decide) rfl

/-! ### Dict and grouping lemmas for the log decoder -/

/-- Every pair of `dictInsert k v d` is `(k, v)` or came from `d`. -/
theorem mem_dictInsert {κ α : Type} [DecidableEq κ] (k : κ) (v : α)
    (d : List (κ × α)) (p : κ × α) (hp : p ∈ dictInsert k v d) :
    p = (k, v) ∨ p ∈ d := by
  induction d with
  | nil => simpa [dictInsert] using hp
  | cons q rest ih =>
    obtain ⟨k', v'⟩ := q
    by_cases hk : k' = k
    · subst hk
      simp [dictInsert] at hp
      rcases hp with h | h
      · exact Or.inl (by simp [h])
      · exact Or.inr (List.mem_cons_of_mem _ h)
    · simp [dictInsert, hk] at hp
      rcases hp with h | h
      · exact Or.inr (by simp [h])
      · rcases ih h with h' | h'
        · exact Or.inl h'
        · exact Or.inr (List.mem_cons_of_mem _ h')

/-- A property of pairs preserved by the dict-building fold. -/
theorem mem_foldl_dictInsert {κ α : Type} [DecidableEq κ] (P : κ × α → Prop) :
    ∀ (l d : List (κ × α)), (∀ p ∈ d, P p) → (∀ p ∈ l, P p) →
      ∀ p ∈ l.foldl (fun acc q => dictInsert q.1 q.2 acc) d, P p := by
  intro l
  induction l with
  | nil => intro d hd _ p hp; exact hd p hp
  | cons q rest ih =>
    intro d hd hl p hp
    refine ih (dictInsert q.1 q.2 d) ?_ (fun r hr => hl r (List.mem_cons_of_mem _ hr)) p hp
    intro r hr
    rcases mem_dictInsert _ _ _ _ hr with h | h
    · subst h; exact hl q (List.mem_cons_self _ _)
    · exact hd r h

/-- Every entry of `events_by_selector` pairs a selector with an event
hashing to it. -/
theorem mem_eventsBySelector (sel : String → Int) (events : List EventAbi)
    (p : Int × EventAbi) (hp : p ∈ eventsBySelector sel events) :
    p.1 = sel p.2.name := by
  simp only [eventsBySelector, listToDict] at hp
  refine mem_foldl_dictInsert (fun q => q.1 = sel q.2.name)
    (events.map fun e => (sel e.name, e)) [] (by simp) ?_ p hp
  intro q hq
  simp at hq
  obtain ⟨e, _, rfl⟩ := hq
  rfl

/-- The key list of `dictInsert`: unchanged for a present key, extended
at the back for a fresh one. -/
theorem keys_dictInsert {κ α : Type} [DecidableEq κ] (k : κ) (v : α)
    (d : List (κ × α)) :
    (dictInsert k v d).map Prod.fst =
      if k ∈ d.map Prod.fst then d.map Prod.fst else d.map Prod.fst ++ [k] := by
  induction d with
  | nil => simp [dictInsert]
  | cons q rest ih =>
    obtain ⟨k', v'⟩ := q
    by_cases hk : k' = k
    · subst hk
      simp [dictInsert]
    · have hkk : ¬ k = k' := fun h => hk h.symm
      simp only [dictInsert, if_neg hk, List.map_cons, ih, List.mem_cons, hkk, false_or]
      by_cases hmem : k ∈ rest.map Prod.fst
      · simp [hmem]
      · simp [hmem]

/-- `dictInsert` preserves distinctness of keys. -/
theorem nodup_keys_dictInsert {κ α : Type} [DecidableEq κ] (k : κ) (v : α)
    (d : List (κ × α)) (hd : (d.map Prod.fst).Nodup) :
    ((dictInsert k v d).map Prod.fst).Nodup := by
  rw [keys_dictInsert]
  by_cases hmem : k ∈ d.map Prod.fst
  · simpa [hmem] using hd
  · rw [if_neg hmem]
    rw [List.nodup_append]
    refine ⟨hd, List.nodup_singleton k, ?_⟩
    intro a ha hak
    rw [List.mem_singleton] at hak
    exact hmem (hak ▸ ha)

/-- A Python dict has distinct keys. -/
theorem nodup_keys_listToDict {κ α : Type} [DecidableEq κ] (l : List (κ × α)) :
    ((listToDict l).map Prod.fst).Nodup := by
  suffices h : ∀ (l d : List (κ × α)), (d.map Prod.fst).Nodup →
      ((l.foldl (fun acc q => dictInsert q.1 q.2 acc) d).map Prod.fst).Nodup by
    simpa [listToDict] using h l [] (by simp)
  intro l
  induction l with
  | nil => intro d hd; exact hd
  | cons q rest ih => intro d hd; exact ih _ (nodup_keys_dictInsert q.1 q.2 d hd)

/-- Lookup in a dict with distinct keys finds the stored value. -/
theorem dictGet_eq_of_mem {κ α : Type} [DecidableEq κ] [Inhabited α] (k : κ) (v : α)
    (d : List (κ × α)) (hnd : (d.map Prod.fst).Nodup) (hmem : (k, v) ∈ d) :
    dictGet k d = v := by
  induction d with
  | nil => cases hmem
  | cons q rest ih =>
    obtain ⟨k', v'⟩ := q
    rw [List.map_cons] at hnd
    have hnd' := List.nodup_cons.mp hnd
    rcases List.mem_cons.mp hmem with h | h
    · have hk : k' = k := (congrArg Prod.fst h).symm
      have hv : v' = v := (congrArg Prod.snd h).symm
      rw [dictGet, if_pos hk, hv]
    · by_cases hk : k' = k
      · exact absurd (by simpa [hk] using List.mem_map_of_mem Prod.fst h) hnd'.1
      · rw [dictGet, if_neg hk]
        exact ih hnd'.2 h

/-- Every decoded log produced by the group enumeration comes from some
group at offset `j`, with `log_index` equal to the enumeration index of
that group. -/
theorem mem_decodeGroups (ebs : List (Int × EventAbi)) :
    ∀ (gs : List (Int × List RawLog)) (i : Nat) (d : DecodedLog),
      d ∈ decodeGroups ebs i gs →
      ∃ j s grp log, gs.get? j = some (s, grp) ∧ log ∈ grp ∧
        d = mkDecodedLog ebs (i + j) s log ∧ d.log_index = i + j := by
  intro gs
  induction gs with
  | nil => intro i d hd; cases hd
  | cons g rest ih =>
    obtain ⟨s, grp⟩ := g
    intro i d hd
    rw [decodeGroups] at hd
    rcases List.mem_append.mp hd with h | h
    · obtain ⟨log, hlog, rfl⟩ := List.mem_map.mp h
      exact ⟨0, s, grp, log, rfl, hlog, by simp, by simp [mkDecodedLog]⟩
    · obtain ⟨j, s', grp', log, hget, hlog, hde, hidx⟩ := ih (i + 1) d h
      refine ⟨j + 1, s', grp', log, by simpa using hget, hlog, ?_, ?_⟩
      · rw [hde]; ring_nf
      · rw [hidx]; ring

/-- The selector-keyed event dict has distinct keys. -/
theorem nodup_keys_eventsBySelector (sel : String → Int) (events : List EventAbi) :
    ((eventsBySelector sel events).map Prod.fst).Nodup := by
  rw [eventsBySelector]; exact nodup_keys_listToDict _

/-- Every log decoded by `decode_logs` carries as `log_index` the
position, in the selector-to-logs grouping, of the group keyed by its
own event's selector. -/
theorem decode_logs_log_index (sel : String → Int) (logs : List RawLog)
    (events : List EventAbi) (d : DecodedLog) (hd : d ∈ decode_logs sel logs events) :
    ∃ grp, (logMapOf sel logs events).get? d.log_index = some (sel d.event_name, grp) := by
  obtain ⟨j, s, grp, log, hget, hlog, hde, hidx⟩ :=
    mem_decodeGroups (eventsBySelector sel events) (logMapOf sel logs events) 0 d hd
  have hmap : (logMapOf sel logs events).get? j =
      ((eventsBySelector sel events).get? j).map
        (fun p => (p.1, logs.filter fun log => decide (p.1 ∈ log.keys))) := by
    rw [logMapOf, List.get?_map]
  cases hq : (eventsBySelector sel events).get? j with
  | none => rw [hmap, hq] at hget; cases hget
  | some q =>
    have hfq : (q.1, logs.filter fun log => decide (q.1 ∈ log.keys)) = (s, grp) := by
      have := hget
      rw [hmap, hq] at this
      exact Option.some.inj this
    have hs : q.1 = s := congrArg Prod.fst hfq
    have hqmem : q ∈ eventsBySelector sel events := List.get?_mem hq
    have hinv : q.1 = sel q.2.name := mem_eventsBySelector sel events q hqmem
    have hgetq : dictGet s (eventsBySelector sel events) = q.2 := by
      rw [← hs]
      exact dictGet_eq_of_mem q.1 q.2 _ (nodup_keys_eventsBySelector sel events) hqmem
    have hname : d.event_name = q.2.name := by
      rw [hde, mkDecodedLog]
      simp [hgetq]
    refine ⟨grp, ?_⟩
    rw [hidx]
    simp only [Nat.zero_add]
    rw [hget]
    congr 1
    rw [Prod.mk.injEq]
    exact ⟨by rw [hname, ← hinv, hs], rfl⟩

/-- Two decoded logs of the same event share one `log_index`. -/
theorem decode_logs_index_unique (sel : String → Int) (logs : List RawLog)
    (events : List EventAbi) (d1 d2 : DecodedLog)
    (h1 : d1 ∈ decode_logs sel logs events) (h2 : d2 ∈ decode_logs sel logs events)
    (hn : d1.event_name = d2.event_name) : d1.log_index = d2.log_index := by
  obtain ⟨grp1, hg1⟩ := decode_logs_log_index sel logs events d1 h1
  obtain ⟨grp2, hg2⟩ := decode_logs_log_index sel logs events d2 h2
  have hkeys : (logMapOf sel logs events).map Prod.fst =
      (eventsBySelector sel events).map Prod.fst := by
    rw [logMapOf, List.map_map]
    rfl
  have hnd : ((logMapOf sel logs events).map Prod.fst).Nodup := by
    rw [hkeys]
    exact nodup_keys_eventsBySelector sel events
  have k1 : ((logMapOf sel logs events).map Prod.fst).get? d1.log_index =
      some (sel d1.event_name) := by
    rw [List.get?_map, hg1]
    rfl
  have k2 : ((logMapOf sel logs events).map Prod.fst).get? d2.log_index =
      some (sel d2.event_name) := by
    rw [List.get?_map, hg2]
    rfl
  have hlen : d1.log_index < ((logMapOf sel logs events).map Prod.fst).length :=
    (List.get?_eq_some.mp k1).1
  refine List.get?_inj hlen hnd ?_
  rw [k1, k2, hn]

/-- C8.  Every `DecodedLog` emitted by `decode_logs` carries a
`log_index` equal to the enumeration index of its matched event group in
the selector-to-logs grouping (the group keyed by its own event's
selector); consequently all logs matching one event signature share one
`log_index`.  Concretely: with logs `[logB, logA]` the chronologically
later `logA` comes out first with index `0` and `logB` gets index `1`
(the cumulative chronological position is not used), and two logs of the
same event both get index `0`. -/
theorem c8_log_index_is_group_index (sel : String → Int) (logs : List RawLog)
    (events : List EventAbi) :
    (∀ d ∈ decode_logs sel logs events,
      ∃ grp, (logMapOf sel logs events).get? d.log_index =
        some (sel d.event_name, grp)) ∧
    (∀ d1 ∈ decode_logs sel logs events, ∀ d2 ∈ decode_logs sel logs events,
      d1.event_name = d2.event_name → d1.log_index = d2.log_index) ∧
    (decode_logs demoSel [logB, logA] [evA, evB]).map
      (fun d => (d.event_name, d.log_index)) = [("A", 0), ("B", 1)] ∧
    (decode_logs demoSel [logA, logA2] [evA, evB]).map
      (fun d => (d.event_name, d.log_index)) = [("A", 0), ("A", 0)] :=
  ⟨fun d hd => decode_logs_log_index sel logs events d hd,
   fun d1 h1 d2 h2 hn => decode_logs_index_unique sel logs events d1 d2 h1 h2 hn,
   rfl, rfl⟩

/-- Witness for `c8_log_index_is_group_index`: the two decoded `A` logs
of the demo share the log index `0`. -/
theorem c8_log_index_is_group_index_witness :
    DecodedLog.log_index
      ⟨10, 11, 12, [], "A", 0, 13, 0⟩ =
    DecodedLog.log_index
      ⟨20, 21, 22, [], "A", 0, 23, 0⟩ := by
  have hEq : decode_logs demoSel [logA, logA2] [evA, evB] =
      [⟨10, 11, 12, [], "A", 0, 13, 0⟩, ⟨20, 21, 22, [], "A", 0, 23, 0⟩] := rfl
  refine (c8_log_index_is_group_index demoSel [logA, logA2] [evA, evB]).2.1 _ ?_ _ ?_ rfl
  · rw [hEq]; exact List.mem_cons_self _ _
  · rw [hEq]; exact List.mem_cons_of_mem _ (List.mem_cons_self _ _)

end ApeStarknet
